import Mathlib

/-
  Verification development for the recursive blog-discovery engine
  (crawler/engine.py, crawler/network.py, crawler/validation.py,
  crawler/utils.py, models.py).

  The engine is shallowly embedded: pure helpers are translated directly,
  network and HTML-parsing effects are abstracted as oracle functions in an
  environment record, randomness is an explicit stream of draws, and the
  mutable crawler state is threaded through explicit state records.

  String helpers are re-implemented over `List Char` (UTF-8 byte-position
  based core functions do not reduce in the kernel); the modelled inputs are
  ASCII URLs, for which character-based and byte-based processing agree.
-/

namespace RSS

/-! ### Character/string primitives (models of Python `str` operations) -/

/-- Lower-case a single ASCII character (model of `str.lower` per char). -/
def lowerChar (c : Char) : Char :=
  if 'A' ≤ c ∧ c ≤ 'Z' then Char.ofNat (c.toNat + 32) else c

/-- Model of `str.lower`. -/
def lowerS (s : String) : String := ⟨s.data.map lowerChar⟩

/-- Whitespace characters considered by Python's `str.strip`. -/
def isWs (c : Char) : Bool := c = ' ' || c = '\t' || c = '\n' || c = '\r'

/-- Model of `str.strip()`. -/
def trimS (s : String) : String :=
  ⟨((s.data.dropWhile isWs).reverse.dropWhile isWs).reverse⟩

/-- Model of `str.rstrip('/')`. -/
def rstripSlash (s : String) : String :=
  ⟨(s.data.reverse.dropWhile (fun c => c = '/')).reverse⟩

/-- Model of `str.startswith`. -/
def startsWithS (s pre : String) : Bool := pre.data.isPrefixOf s.data

/-- Drop the first `n` characters (model of slicing `s[n:]` for ASCII). -/
def dropS (s : String) (n : Nat) : String := ⟨s.data.drop n⟩

/-- Character count (model of `len(s)` for ASCII strings). -/
def lenS (s : String) : Nat := s.data.length

/-- The suffix after the first occurrence of `sep`, if `sep` occurs. -/
def afterFirstL (sep : List Char) : List Char → Option (List Char)
  | [] => if sep = [] then some [] else none
  | c :: cs =>
    if sep.isPrefixOf (c :: cs) then some ((c :: cs).drop sep.length)
    else afterFirstL sep cs

/-- Model of Python's `in` operator on strings (substring containment). -/
def containsS (hay needle : String) : Bool := (afterFirstL needle.data hay.data).isSome

/-- Split on a single-character separator (model of `str.split(sep)`). -/
def splitCharL (sep : Char) : List Char → List (List Char)
  | [] => [[]]
  | c :: cs =>
    let r := splitCharL sep cs
    if c = sep then [] :: r
    else
      match r with
      | [] => [[c]]
      | x :: xs => (c :: x) :: xs

/-- Model of `str.split(sep)` for a one-character separator. -/
def splitS (s : String) (sep : Char) : List String :=
  (splitCharL sep s.data).map (fun cs => ⟨cs⟩)

/-- Everything after the first occurrence of a separator string
(model of `s.split(sep, 1)[1]`, empty when `sep` does not occur). -/
def afterFirstS (s sep : String) : Option String :=
  (afterFirstL sep.data s.data).map (fun cs => ⟨cs⟩)

/-- Model of `'.'.join(parts)`. -/
def joinDots (parts : List String) : String := String.intercalate "." parts

/-! ### Domain/URL utilities (crawler/utils.py) -/

/-- Model of `urllib.parse.urlparse(url).netloc` for the absolute URLs the
engine handles: the host part between `"://"` and the first `/`, `?` or `#`;
empty when the URL has no `"://"`. -/
def netlocOf (url : String) : String :=
  match afterFirstL "://".data url.data with
  | some rest => ⟨rest.takeWhile (fun c => ¬ (c = '/' ∨ c = '?' ∨ c = '#'))⟩
  | none => ""

/-- `extract_domain` (crawler/utils.py): lower-cased netloc with a leading
`www.` removed; empty string when no host can be parsed. -/
def extract_domain (url : String) : String :=
  let domain := lowerS (netlocOf url)
  if startsWithS domain "www." then dropS domain 4 else domain

/-- The compound-suffix labels for which `get_base_domain` keeps 3 labels. -/
def compoundSuffixes : List String := ["co", "com", "ac", "gov", "org", "net"]

/-- `get_base_domain` (crawler/utils.py). -/
def get_base_domain (domain : String) : String :=
  if domain = "" then ""
  else
    let parts := splitS domain '.'
    if parts.length ≤ 2 then domain
    else if 3 ≤ parts.length ∧ parts.getD (parts.length - 2) "" ∈ compoundSuffixes then
      joinDots (parts.drop (parts.length - 3))
    else joinDots (parts.drop (parts.length - 2))

/-! ### Data model (models.py) -/

/-- Feed-discovery status strings returned by `Fetcher.discover_feeds`. -/
inductive Status where
  | success
  | has_blog_indicators
  | no_blog_indicators
  | unreachable
deriving DecidableEq, Repr

/-- A post dict as produced by `Fetcher.fetch_feed` (crawler/network.py).
`published_timestamp` is `0` when no date was parsed, mirroring the code. -/
structure Post where
  title : String
  link : String
  published : Option String
  published_timestamp : Int
  summary : String
  full_content : String
  raw_html_content : String
  blog_name : String
  feed_url : String
deriving DecidableEq, Repr

/-- `models.BlogPost` (HttpUrl and datetime fields modelled as strings). -/
structure BlogPost where
  title : String
  link : String
  published : Option String
  summary : String
  full_content : String
  raw_html_content : String
deriving DecidableEq, Repr

/-- `models.DiscoveredFrom`: `source_blog` is required, the other two fields
are optional with default `None`. -/
structure DiscoveredFrom where
  source_blog : String
  source_blog_name : Option String := none
  post_link : Option String := none
deriving DecidableEq, Repr

/-- The `source_info` dict attached to a frontier item (the four keys built in
`crawl_blog` plus `parent_depth`, which the engine adds just before enqueueing;
`parent_depth` defaults to 0, mirroring `source_info.get('parent_depth', 0)`). -/
structure QSource where
  source_blog : String
  source_blog_name : String
  source_post_title : String
  source_post_link : String
  parent_depth : Nat := 0
deriving DecidableEq, Repr

/-- A frontier item: `(blog_url, source_info)` with `None` for seeds. -/
abbrev FrontierItem := String × Option QSource

/-- `models.BlogInfo` (the `discovered_at` datetime is not modelled). -/
structure BlogInfo where
  url : String
  name : String
  feed_url : String
  latest_post : BlogPost
  discovered_from : Option DiscoveredFrom := none
  depth : Nat := 0
deriving DecidableEq, Repr

/-- `models.DiscoveryState` (the `timestamp` datetime is not modelled).
Python sets become `Finset String`; the dict `discovered_blogs` becomes an
association list with Python-dict insertion semantics; the working deque
`self.blogs_to_process` and the state field of the same name are merged into
one field, since the engine only reads the working deque and re-syncs the
state field on every save. -/
structure DiscoveryState where
  discovered_blogs : List (String × BlogInfo) := []
  processed_domains : Finset String := (∅ : Finset String)
  failed_domains : Finset String := (∅ : Finset String)
  failed_base_domains : Finset String := (∅ : Finset String)
  queued_domains : Finset String := (∅ : Finset String)
  blogs_to_process : List FrontierItem := []
deriving DecidableEq

/-- The empty state a fresh engine starts with (`DiscoveryState()`). -/
def DiscoveryState.empty : DiscoveryState := {}

/-- Python dict lookup on an association list. -/
def assocLookup {α : Type} : List (String × α) → String → Option α
  | [], _ => none
  | (k, v) :: rest, key => if k = key then some v else assocLookup rest key

/-- Python dict membership on an association list. -/
def assocHasKey {α : Type} (d : List (String × α)) (key : String) : Bool :=
  (assocLookup d key).isSome

/-- Python dict assignment `d[k] = v`: update in place if the key exists,
append otherwise. -/
def dictInsert {α : Type} (k : String) (v : α) : List (String × α) → List (String × α)
  | [] => [(k, v)]
  | (k1, v1) :: rest => if k1 = k then (k, v) :: rest else (k1, v1) :: dictInsert k v rest

/-- `DiscoveredFrom.model_validate` on a string-valued dict: pydantic looks up
declared fields by name, ignores extra keys, defaults missing optionals to
`None`, and rejects a dict missing the required `source_blog`. -/
def DiscoveredFrom.model_validate (d : List (String × String)) : Option DiscoveredFrom :=
  match assocLookup d "source_blog" with
  | none => none
  | some sb =>
    some { source_blog := sb
           source_blog_name := assocLookup d "source_blog_name"
           post_link := assocLookup d "post_link" }

/-! ### Randomness, modelled as explicit streams of draws -/

/-- A stream of random draws: `bits` feeds `random.random() < 0.5` coin flips,
`nats` feeds `random.randint` (reduced into range by modulus, so every value in
the range is realisable). An exhausted stream yields `false` / the lower bound. -/
structure Rng where
  bits : List Bool := []
  nats : List Nat := []
deriving DecidableEq, Repr

/-- Draw a coin flip (model of `random.random() < 0.5`). -/
def Rng.nextBit : Rng → Bool × Rng
  | ⟨[], ns⟩ => (false, ⟨[], ns⟩)
  | ⟨b :: bs, ns⟩ => (b, ⟨bs, ns⟩)

/-- Draw `random.randint(0, hi)`: the next raw draw reduced mod `hi + 1`. -/
def Rng.nextNat (hi : Nat) : Rng → Nat × Rng
  | ⟨bs, []⟩ => (0, ⟨bs, []⟩)
  | ⟨bs, n :: ns⟩ => (n % (hi + 1), ⟨bs, ns⟩)

/-! ### Network layer (crawler/network.py, crawler/validation.py)

The HTTP world and the HTML/XML/feed parsers are oracles in `NetEnv`; the
fetcher's control flow over them is translated from the source.  Each network
function also returns the list of outbound events it performs, in order, so
that rate-limiter coverage is checkable. -/

/-- An outbound network event: a rate-limiter invocation for a domain, or an
HTTP GET of a URL. -/
inductive NetEvent where
  | rateLimit (domain : String)
  | httpGet (url : String)
deriving DecidableEq, Repr

/-- Whether an event is a rate-limiter invocation. -/
def NetEvent.isRate : NetEvent → Bool
  | .rateLimit _ => true
  | .httpGet _ => false

/-- The oracle environment: `resp url = none` models a fetch exception,
`some (code, body)` an HTTP response; the remaining fields abstract
BeautifulSoup/feedparser/robotparser results on a fetched body. -/
structure NetEnv where
  resp : String → Option (Nat × String)
  parseFailsRoot : String → Bool
  wordpressMeta : String → Bool
  linkTagHrefs : String → List String
  navAnchors : String → List (String × String)
  locs : String → List String
  parseFeed : String → String → List Post
  urljoin : String → String → String
  robotsVerdict : String → Bool
  blogLinks : String → String → List String

/-- `Fetcher.enforce_rate_limit`: records/waits per domain; returns immediately
for an empty domain. Only the fact of the invocation is modelled. -/
def enforceTrace (domain : String) : List NetEvent :=
  if domain = "" then [] else [.rateLimit domain]

/-- The `Sitemap:` directives of a robots.txt body, converted to site-relative
paths exactly as in `Fetcher.check_sitemap`. -/
def robotsSitemapPaths (base_url body : String) : List String :=
  (splitS body '\n').foldl
    (fun acc line =>
      let line := trimS line
      if startsWithS (lowerS line) "sitemap:" then
        let sm := trimS ((afterFirstS line ":").getD "")
        if startsWithS sm base_url then acc ++ [dropS sm (lenS base_url)]
        else if startsWithS sm "/" then acc ++ [sm]
        else acc
      else acc)
    []

/-- Fallback sitemap locations tried when robots.txt names none. -/
def defaultSitemapPaths : List String :=
  ["/sitemap.xml", "/sitemap_index.xml", "/sitemap-index.xml", "/rss-sitemap.xml"]

/-- Keywords a sitemap `<loc>` entry must contain to be kept. -/
def sitemapKeywords : List String := ["feed", "rss", "atom", "blog"]

/-- The per-path loop of `Fetcher.check_sitemap`: fetch each candidate sitemap,
collect matching `<loc>` entries, and stop at the first sitemap that yields
results (capped at 10). -/
def sitemapLoop (env : NetEnv) (base_url : String) (acc : List String) :
    List String → List String × List NetEvent
  | [] => (acc, [])
  | p :: ps =>
    let smUrl := base_url ++ p
    match env.resp smUrl with
    | some (200, body) =>
      let ms := (env.locs body).filter
        (fun loc => sitemapKeywords.any (fun kw => containsS (lowerS loc) kw))
      let acc2 := acc ++ ms
      if acc2.isEmpty then
        let r := sitemapLoop env base_url acc2 ps
        (r.1, .httpGet smUrl :: r.2)
      else (acc2.take 10, [.httpGet smUrl])
    | _ =>
      let r := sitemapLoop env base_url acc ps
      (r.1, .httpGet smUrl :: r.2)

/-- `Fetcher.check_sitemap`: robots.txt probe for `Sitemap:` directives, then
the sitemap fetch loop. No rate limiting happens here, as in the source. -/
def check_sitemap (env : NetEnv) (url : String) : List String × List NetEvent :=
  let base_url := rstripSlash url
  let robots_url := base_url ++ "/robots.txt"
  let paths :=
    match env.resp robots_url with
    | some (200, body) => robotsSitemapPaths base_url body
    | _ => []
  let paths := if paths.isEmpty then defaultSitemapPaths else paths
  let r := sitemapLoop env base_url [] paths
  (r.1, .httpGet robots_url :: r.2)

/-- Keywords that mark a navigation anchor as blog-related. -/
def navKeywords : List String :=
  ["blog", "rss", "feed", "atom", "subscribe", "news", "articles", "posts"]

/-- Keywords in an href that mark it as a direct feed link. -/
def feedLinkKeywords : List String := ["rss", "feed", "atom", ".xml"]

/-- The navigation-menu scan of `Fetcher.discover_feeds` over the anchors found
in nav-like elements (the anchors themselves come from the HTML oracle):
collects feed-URL guesses and whether any blog indicator was seen. -/
def navScan (env : NetEnv) (url : String) (anchors : List (String × String)) :
    List String × Bool :=
  anchors.foldl
    (fun acc a =>
      let hl := lowerS a.1
      let tl := trimS (lowerS a.2)
      if navKeywords.any (fun kw => containsS hl kw || containsS tl kw) then
        let full := env.urljoin url a.1
        let acc1 :=
          if containsS hl "blog" || containsS tl "blog" then
            acc.1 ++ [rstripSlash full ++ "/feed", rstripSlash full ++ "/rss",
                      rstripSlash full ++ "/atom"]
          else acc.1
        let acc2 :=
          if feedLinkKeywords.any (fun kw => containsS hl kw) then acc1 ++ [full]
          else acc1
        (acc2, true)
      else acc)
    ([], false)

/-- The fixed generic fallback feed paths appended by `discover_feeds`. -/
def commonFeedPaths : List String :=
  ["/feed/", "/feed", "/rss/", "/rss", "/atom/", "/atom",
   "/index.xml", "/rss.xml", "/feed.xml", "/atom.xml",
   "/blog/feed/", "/blog/feed", "/blog/rss/", "/blog/rss"]

/-- Append each common feed path not already present (the final fallback
stage of `discover_feeds`). -/
def appendCommonFeeds (env : NetEnv) (url : String) (feed_urls : List String) :
    List String :=
  commonFeedPaths.foldl
    (fun acc p =>
      let fu := env.urljoin url p
      if fu ∈ acc then acc else acc ++ [fu])
    feed_urls

/-- The platform shortcut stage of `discover_feeds`: first matching platform
wins, yielding its canonical feed paths and an indicator flag. -/
def platformFeeds (env : NetEnv) (url : String) (body : String) :
    List String × Bool :=
  let domain_lower := lowerS (netlocOf url)
  if containsS domain_lower "substack.com" then ([env.urljoin url "/feed"], true)
  else if containsS domain_lower "blogspot.com" then
    ([env.urljoin url "/feeds/posts/default",
      env.urljoin url "/feeds/posts/default?alt=rss"], true)
  else if containsS domain_lower "wordpress.com" || env.wordpressMeta body then
    ([env.urljoin url "/feed/", env.urljoin url "/feed"], true)
  else if containsS domain_lower "medium.com" then ([env.urljoin url "/feed"], true)
  else if containsS domain_lower "ghost.io" then
    ([env.urljoin url "/rss/", env.urljoin url "/rss"], true)
  else ([], false)

/-- The full candidate list assembled by `discover_feeds` when fetch and parse
succeed: platform shortcuts, HTML `<link>` feeds, sitemap feeds, navigation
guesses, then the deduplicated common paths, finally capped at 15. -/
def discoverCandidates (env : NetEnv) (url body : String) : List String :=
  let pf := platformFeeds env url body
  let linkFeeds := (env.linkTagHrefs body).map (env.urljoin url)
  let sm := check_sitemap env url
  let nav := navScan env url (env.navAnchors body)
  let feed_urls := appendCommonFeeds env url (pf.1 ++ linkFeeds ++ sm.1 ++ nav.1)
  if 15 < feed_urls.length then feed_urls.take 10 ++ (feed_urls.drop 10).take 5
  else feed_urls

/-- Whether any blog indicator was seen during the parse phase. -/
def discoverIndicators (env : NetEnv) (url body : String) : Bool :=
  (platformFeeds env url body).2 ||
    !((env.linkTagHrefs body).map (env.urljoin url)).isEmpty ||
    !(check_sitemap env url).1.isEmpty || (navScan env url (env.navAnchors body)).2

/-- The final classification of `discover_feeds` (engine source: non-empty
candidates ⇒ `success`; else indicators ⇒ `has_blog_indicators`; else
`no_blog_indicators`). -/
def discoverParse (env : NetEnv) (url body : String) : List String × Status :=
  let feed_urls := discoverCandidates env url body
  if !feed_urls.isEmpty then (feed_urls, Status.success)
  else if discoverIndicators env url body then (feed_urls, Status.has_blog_indicators)
  else (feed_urls, Status.no_blog_indicators)

/-- `Fetcher.discover_feeds`: rate-limit, fetch the root URL (any failure or
HTTP error status means `unreachable`), then run the heuristic pipeline on the
fetched document; any parse exception after a successful fetch also yields
`unreachable`.  Returns the candidate list, the status, and the trace of
outbound events (the sitemap probe is the only stage that performs further
GETs). -/
def discover_feeds (env : NetEnv) (url : String) :
    (List String × Status) × List NetEvent :=
  let domain := extract_domain url
  let t0 := enforceTrace domain ++ [.httpGet url]
  match env.resp url with
  | none => (([], .unreachable), t0)
  | some (code, body) =>
    if 400 ≤ code then (([], .unreachable), t0)
    else if env.parseFailsRoot body then (([], .unreachable), t0)
    else (discoverParse env url body, t0 ++ (check_sitemap env url).2)

/-- `Fetcher.fetch_feed`: rate-limit, fetch the feed URL; a non-200 status or
any exception yields an empty post list; otherwise the feedparser oracle turns
the body into posts. -/
def fetch_feed (env : NetEnv) (feed_url : String) : List Post × List NetEvent :=
  let domain := extract_domain feed_url
  let tr := enforceTrace domain ++ [.httpGet feed_url]
  match env.resp feed_url with
  | none => ([], tr)
  | some (code, body) =>
    if code = 200 then (env.parseFeed body feed_url, tr) else ([], tr)

/-- `Validator.is_allowed_by_robots` (crawler/validation.py): on a cache miss
it fetches `https://{domain}/robots.txt` directly — with no rate limiting —
and evaluates the cached rule set (abstracted by the `robotsVerdict` oracle);
an empty domain is always allowed. -/
def is_allowed_by_robots (env : NetEnv) (cached : Bool) (url : String) :
    Bool × List NetEvent :=
  let domain := extract_domain url
  if domain = "" then (true, [])
  else if cached then (env.robotsVerdict url, [])
  else (env.robotsVerdict url, [.httpGet ("https://" ++ domain ++ "/robots.txt")])

/-! ### Frontier scheduler (engine.py `add_to_queue` and strategy validation) -/

/-- The valid queue strategies accepted by `RecursiveBlogDiscovery.__init__`. -/
def validStrategies : List String := ["breadth_first", "depth_first", "random", "mixed"]

/-- Strategy validation in `__init__`: an invalid name falls back to `mixed`
(with a warning). -/
def validate_strategy (s : String) : String :=
  if s ∈ validStrategies then s else "mixed"

/-- `RecursiveBlogDiscovery.add_to_queue`: insert a frontier item according to
the configured strategy.  Random draws are consumed exactly where the Python
code consumes them (short-circuit order preserved).  An unvalidated strategy
name matches no branch and leaves the queue unchanged, as in the source. -/
def add_to_queue (strategy : String) (item : FrontierItem) (new_depth : Nat)
    (q : List FrontierItem) (rng : Rng) : List FrontierItem × Rng :=
  if strategy = "breadth_first" then (q ++ [item], rng)
  else if strategy = "depth_first" then (item :: q, rng)
  else if strategy = "random" then
    if q.length = 0 then (q ++ [item], rng)
    else
      let d := rng.nextNat q.length
      (q.insertIdx d.1 item, d.2)
  else if strategy = "mixed" then
    if 0 < new_depth then
      let c := rng.nextBit
      if c.1 && !q.isEmpty then
        let d := c.2.nextNat (max 1 (q.length / 2))
        (q.insertIdx d.1 item, d.2)
      else (q ++ [item], c.2)
    else (q ++ [item], rng)
  else (q, rng)

/-! ### Orchestrator (engine.py `crawl_blog` / `run_discovery`)

`crawl_blog` talks to its collaborators (validator, fetcher, link extractor)
through the `CrawlDeps` interface; `CrawlDeps.ofNet` wires it to the concrete
network-layer models above. -/

/-- The collaborators `crawl_blog` calls, as an abstract interface. -/
structure CrawlDeps where
  robotsAllowed : String → Bool
  discover : String → List String × Status
  fetchFeed : String → List Post
  extractLinks : String → String → List String

/-- Wire `CrawlDeps` to the concrete fetcher/validator models. -/
def CrawlDeps.ofNet (env : NetEnv) : CrawlDeps where
  robotsAllowed := env.robotsVerdict
  discover := fun u => (discover_feeds env u).1
  fetchFeed := fun u => (fetch_feed env u).1
  extractLinks := env.blogLinks

/-- Engine configuration relevant to the modelled behaviour. -/
structure Config where
  max_blogs : Nat
  queue_strategy : String
  blacklist_base_domain_sites : Finset String := (∅ : Finset String)

/-- Result of one `crawl_blog` call: the new state, the advanced random
stream, and the returned boolean. -/
structure CrawlOut where
  state : DiscoveryState
  rng : Rng
  ok : Bool
deriving DecidableEq

/-- `max(posts, key=lambda p: p['published_timestamp'])`: the first post with
the maximal timestamp (Python `max` keeps the earliest maximal element). -/
def latestPost (p : Post) (ps : List Post) : Post :=
  ps.foldl (fun acc q => if acc.published_timestamp < q.published_timestamp then q else acc) p

/-- The `discovery_source` dict built in `crawl_blog` (engine.py lines
223-228): exactly the four source keys, copied from the frontier item's
`source_info`. -/
def discoverySourceDict (si : QSource) : List (String × String) :=
  [("source_blog", si.source_blog),
   ("source_blog_name", si.source_blog_name),
   ("source_post_title", si.source_post_title),
   ("source_post_link", si.source_post_link)]

/-- The link-scanning loop of the success path: for every post, extract blog
links and record the first-seen source post for each new candidate URL. -/
def collectNewBlogs (deps : CrawlDeps) (blog_url blog_name : String)
    (posts : List Post) : List (String × QSource) :=
  posts.foldl
    (fun acc post =>
      (deps.extractLinks post.raw_html_content post.link).foldl
        (fun acc2 blog_link =>
          if assocHasKey acc2 blog_link then acc2
          else acc2 ++ [(blog_link,
            { source_blog := blog_url
              source_blog_name := blog_name
              source_post_title := post.title
              source_post_link := post.link })])
        acc)
    []

/-- The enqueueing loop of the success path (engine.py lines 276-283): a
candidate is enqueued only when its domain is non-empty, not processed, and
not already queued; its `parent_depth` is set to the current record's depth and
its domain is added to `queued_domains`. -/
def enqueueCandidates (cfg : Config) (current_depth : Nat)
    (newBlogs : List (String × QSource)) (st : DiscoveryState) (rng : Rng) :
    DiscoveryState × Rng :=
  newBlogs.foldl
    (fun acc nb =>
      let st := acc.1
      let nd := extract_domain nb.1
      if nd ≠ "" ∧ nd ∉ st.processed_domains ∧ nd ∉ st.queued_domains then
        let src := { nb.2 with parent_depth := current_depth }
        let qr := add_to_queue cfg.queue_strategy (nb.1, some src) (current_depth + 1)
          st.blogs_to_process acc.2
        ({ st with blogs_to_process := qr.1, queued_domains := insert nd st.queued_domains },
         qr.2)
      else acc)
    (st, rng)

/-- The feed-trial loop of `crawl_blog` (engine.py lines 212-302): try each
candidate feed URL in order; the first that yields posts triggers the success
path (build the record, insert it, scan posts, enqueue candidates); if none
does, mark the domain failed and blacklist its base domain only when it is a
configured large platform. -/
def tryFeeds (deps : CrawlDeps) (cfg : Config) (blog_url domain base_domain : String)
    (source_info : Option QSource) (st : DiscoveryState) (rng : Rng) :
    List String → CrawlOut
  | [] =>
    let st := { st with failed_domains := insert domain st.failed_domains }
    if base_domain ∈ cfg.blacklist_base_domain_sites then
      ⟨{ st with failed_base_domains := insert base_domain st.failed_base_domains }, rng, false⟩
    else ⟨st, rng, false⟩
  | feed_url :: rest =>
    match deps.fetchFeed feed_url with
    | [] => tryFeeds deps cfg blog_url domain base_domain source_info st rng rest
    | p :: ps =>
      let posts := p :: ps
      let latest := latestPost p ps
      let discovery_source := source_info.map discoverySourceDict
      let blog_depth := match source_info with
        | some si => si.parent_depth + 1
        | none => 0
      let blog_info : BlogInfo :=
        { url := blog_url
          name := latest.blog_name
          feed_url := feed_url
          latest_post :=
            { title := latest.title
              link := latest.link
              published := latest.published
              summary := latest.summary
              full_content := latest.full_content
              raw_html_content := latest.raw_html_content }
          discovered_from := discovery_source.bind DiscoveredFrom.model_validate
          depth := blog_depth }
      let st := { st with discovered_blogs := dictInsert domain blog_info st.discovered_blogs }
      let current_depth := match assocLookup st.discovered_blogs domain with
        | some info => info.depth
        | none => 0
      let newBlogs := collectNewBlogs deps blog_url latest.blog_name posts
      let er := enqueueCandidates cfg current_depth newBlogs st rng
      ⟨er.1, er.2, true⟩

/-- `RecursiveBlogDiscovery.crawl_blog`: the per-item classification state
machine (engine.py lines 144-302). -/
def crawl_blog (deps : CrawlDeps) (cfg : Config) (st : DiscoveryState)
    (blog_url : String) (source_info : Option QSource) (rng : Rng) : CrawlOut :=
  let domain := extract_domain blog_url
  if domain = "" then ⟨st, rng, false⟩
  else
    let base_domain := get_base_domain domain
    if base_domain ∈ st.failed_base_domains then
      ⟨{ st with processed_domains := insert domain st.processed_domains }, rng, false⟩
    else if domain ∈ st.processed_domains then ⟨st, rng, false⟩
    else
      let st := { st with processed_domains := insert domain st.processed_domains }
      if ¬ deps.robotsAllowed blog_url then ⟨st, rng, false⟩
      else
        let fd := deps.discover blog_url
        if fd.2 = Status.unreachable then
          let st := { st with failed_domains := insert domain st.failed_domains }
          if domain = base_domain then
            ⟨{ st with failed_base_domains := insert base_domain st.failed_base_domains },
             rng, false⟩
          else ⟨st, rng, false⟩
        else if fd.2 = Status.no_blog_indicators then
          let st := { st with failed_domains := insert domain st.failed_domains }
          if domain = base_domain then
            ⟨{ st with failed_base_domains := insert base_domain st.failed_base_domains },
             rng, false⟩
          else ⟨st, rng, false⟩
        else if fd.1.isEmpty then
          -- both the `has_blog_indicators` and the defensive branch add only
          -- to failed_domains and return False
          ⟨{ st with failed_domains := insert domain st.failed_domains }, rng, false⟩
        else tryFeeds deps cfg blog_url domain base_domain source_info st rng fd.1

/-- One iteration body of the `run_discovery` main loop: pop the front item,
discard its domain from `queued_domains`, and classify it via `crawl_blog`.
(Queue items are always well-formed pairs in the model, so the legacy
string-item and invalid-item branches of the source do not arise; per-item
exceptions cannot occur since the model is total.) -/
def loopStep (deps : CrawlDeps) (cfg : Config) (st : DiscoveryState) (rng : Rng) :
    DiscoveryState × Rng :=
  match st.blogs_to_process with
  | [] => (st, rng)
  | (blog_url, source_info) :: rest =>
    let domain := extract_domain blog_url
    let st1 := { st with blogs_to_process := rest
                         queued_domains := st.queued_domains.erase domain }
    let r := crawl_blog deps cfg st1 blog_url source_info rng
    (r.state, r.rng)

/-- The `run_discovery` main loop: while the frontier is non-empty and fewer
than `max_blogs` records are discovered, run one iteration.  `fuel` bounds the
iteration count (the Python loop's termination is not part of any claim). -/
def runLoop (deps : CrawlDeps) (cfg : Config) :
    Nat → DiscoveryState → Rng → DiscoveryState × Rng
  | 0, st, rng => (st, rng)
  | fuel + 1, st, rng =>
    if st.blogs_to_process.isEmpty ∨ cfg.max_blogs ≤ st.discovered_blogs.length then
      (st, rng)
    else
      let s := loopStep deps cfg st rng
      runLoop deps cfg fuel s.1 s.2

/-- The `queued_domains` rebuild used at engine.py lines 104 and 318:
`{extract_domain(url) for url, _ in queue if extract_domain(url)}`. -/
def computeQueuedDomains (q : List FrontierItem) : Finset String :=
  q.foldl
    (fun s it => if extract_domain it.1 = "" then s else insert (extract_domain it.1) s)
    (∅ : Finset String)

/-- The seeding phase of `run_discovery` (engine.py lines 313-318): append
every seed whose domain is not yet processed — without consulting the queue —
then rebuild `queued_domains` from the whole queue. -/
def seedPhase (st : DiscoveryState) (seeds : List String) : DiscoveryState :=
  let q := st.blogs_to_process ++
    (seeds.filter (fun u => extract_domain u ∉ st.processed_domains)).map
      (fun u => ((u, none) : FrontierItem))
  { st with blogs_to_process := q, queued_domains := computeQueuedDomains q }

/-- `RecursiveBlogDiscovery.run_discovery`: seed, loop, and (state-identity in
this model) final checkpoint save. -/
def run_discovery (deps : CrawlDeps) (cfg : Config) (fuel : Nat)
    (seeds : List String) (st : DiscoveryState) (rng : Rng) : DiscoveryState × Rng :=
  runLoop deps cfg fuel (seedPhase st seeds) rng

/-! ### Checkpoint store (engine.py `save_checkpoint` / `load_checkpoint`) -/

/-- `save_checkpoint`: sync `state.blogs_to_process` from the working deque
(an identity here, since the model keeps one merged field), stamp the time
(not modelled), and serialize.  `model_dump_json` followed by
`model_validate` is faithful on every modelled field (dicts keep insertion
order, sets keep membership, tuples survive as 2-element arrays), so the
serialized snapshot is represented by the state itself. -/
def save_checkpoint (st : DiscoveryState) : DiscoveryState := st

/-- What reading a checkpoint file can yield: no file, a file that fails
`json.load`/`model_validate`, or a validated state. -/
inductive FileRead where
  | missing
  | invalid
  | valid (st : DiscoveryState)

/-- The checkpoint path that will be read: the explicitly requested path when
given, else the default path in the json dir. -/
def resolvePath (explicitPath : Option String) (defaultPath : String) : String :=
  match explicitPath with
  | some p => p
  | none => defaultPath

/-- `load_checkpoint`: read and validate the resolved path; on a missing file
(error-logged when an explicit path was requested, info-logged otherwise) or
any caught exception, return `False` leaving the current state untouched; on
success, install the loaded state, restore the working queue, apply the
backward-compatibility rebuild of `queued_domains` (when it is empty but the
queue is not), and return whether any blogs were resumed. -/
def load_checkpoint (explicitPath : Option String) (defaultPath : String)
    (fs : String → FileRead) (current : DiscoveryState) : DiscoveryState × Bool :=
  match fs (resolvePath explicitPath defaultPath) with
  | .missing => (current, false)
  | .invalid => (current, false)
  | .valid ck =>
    let ck :=
      if ck.queued_domains = (∅ : Finset String) ∧ ¬ ck.blogs_to_process.isEmpty then
        { ck with queued_domains := computeQueuedDomains ck.blogs_to_process }
      else ck
    (ck, !ck.discovered_blogs.isEmpty)

/-- The possible outcomes of engine construction: fatal abort, or a started
engine with its initial state. -/
inductive InitResult where
  | fatalErr
  | started (st : DiscoveryState)
deriving DecidableEq

/-- `RecursiveBlogDiscovery.__init__` restricted to checkpoint handling: the
constructor calls `load_checkpoint` on a fresh empty state and ignores its
boolean result; `load_checkpoint` catches every exception internally, so the
constructor has no abort path and the engine always starts. -/
def engine_init (explicitPath : Option String) (defaultPath : String)
    (fs : String → FileRead) : InitResult :=
  .started (load_checkpoint explicitPath defaultPath fs DiscoveryState.empty).1

/-! ### Concrete fixtures for witnesses and counterexamples -/

/-- The scheme and host of an absolute URL (`https://a.com/x` ↦ `https://a.com`). -/
def schemeNetloc (base : String) : String :=
  match afterFirstL "://".data base.data with
  | some rest => ⟨(base.data.take (base.data.length - rest.length)) ++ (netlocOf base).data⟩
  | none => base

/-- A concrete `urljoin` for the fixtures below, handling the two shapes the
engine itself constructs: absolute references and root-relative paths. -/
def ujFix (base p : String) : String :=
  if containsS p "://" then p
  else if startsWithS p "/" then schemeNetloc base ++ p
  else p

/-- A network world where `https://a.com/` serves a plain page and
`https://a.com/feed/` serves a one-post feed; everything else errors. -/
def netA : NetEnv where
  resp := fun u =>
    if u = "https://a.com/" then some (200, "root")
    else if u = "https://a.com/feed/" then some (200, "feedbody")
    else none
  parseFailsRoot := fun _ => false
  wordpressMeta := fun _ => false
  linkTagHrefs := fun _ => []
  navAnchors := fun _ => []
  locs := fun _ => []
  parseFeed := fun body furl =>
    if body = "feedbody" then
      [{ title := "t1", link := "https://a.com/p1", published := some "2024-01-01",
         published_timestamp := 1, summary := "", full_content := "",
         raw_html_content := "", blog_name := "Blog A", feed_url := furl }]
    else []
  urljoin := ujFix
  robotsVerdict := fun _ => true
  blogLinks := fun _ _ => []

/-- Budget-1 configuration with breadth-first scheduling. -/
def cfgA : Config := { max_blogs := 1, queue_strategy := "breadth_first" }

/-- The state reached by a full run on two seeds that share the domain
`a.com`: the first seed is crawled successfully (reaching the budget of 1) and
the duplicate second seed is left pending with `queued_domains` empty. -/
def finalA : DiscoveryState :=
  (run_discovery (CrawlDeps.ofNet netA) cfgA 5 ["https://a.com/", "https://a.com/x"]
    DiscoveryState.empty {}).1

/-- A network world where the root page is served but robots.txt and all
sitemap probes return 404, so `discover_feeds` performs six GETs under a
single rate-limiter invocation. -/
def netB : NetEnv where
  resp := fun u => if u = "http://a.com" then some (200, "root") else some (404, "")
  parseFailsRoot := fun _ => false
  wordpressMeta := fun _ => false
  linkTagHrefs := fun _ => []
  navAnchors := fun _ => []
  locs := fun _ => []
  parseFeed := fun _ _ => []
  urljoin := ujFix
  robotsVerdict := fun _ => true
  blogLinks := fun _ _ => []

/-- Collaborators whose feed discovery always reports `unreachable`. -/
def depsUnreachable : CrawlDeps where
  robotsAllowed := fun _ => true
  discover := fun _ => ([], Status.unreachable)
  fetchFeed := fun _ => []
  extractLinks := fun _ _ => []

/-- Number of HTTP GETs in a trace whose target has the given domain. -/
def getsTo (d : String) (tr : List NetEvent) : Nat :=
  (tr.filter (fun e => match e with
    | .httpGet u => extract_domain u == d
    | _ => false)).length

/-- Number of rate-limiter invocations for the given domain in a trace. -/
def ratesFor (d : String) (tr : List NetEvent) : Nat :=
  (tr.filter (fun e => match e with
    | .rateLimit d2 => d2 == d
    | _ => false)).length

/-- The canonical domains of a list of frontier items (empty ones dropped,
matching the `queued_domains` rebuild comprehension). -/
def domList (q : List FrontierItem) : List String :=
  (q.map (fun it => extract_domain it.1)).filter (fun d => d != "")

/-- The canonical domains of the pending frontier items. -/
def queueDomains (st : DiscoveryState) : List String := domList st.blogs_to_process

/-- At most one pending frontier item per (non-empty) canonical domain, and
every pending domain is tracked in `queued_domains`. -/
def QueueInv (st : DiscoveryState) : Prop :=
  (queueDomains st).Nodup ∧
  ∀ it ∈ st.blogs_to_process, extract_domain it.1 ≠ "" →
    extract_domain it.1 ∈ st.queued_domains

/-- Every stored record's provenance has `post_link = none`. -/
def ProvClean (st : DiscoveryState) : Prop :=
  ∀ kv ∈ st.discovered_blogs, ∀ df, kv.2.discovered_from = some df →
    df.post_link = none

/-! ### Theorems -/

/-- C4: once `len(discovered_blogs)` has reached the target budget, the main
loop never pops another frontier item: `run_discovery`'s loop returns the
state unchanged (frontier items left unconsumed) no matter how much fuel
remains. -/
theorem claim4_budget_stop (deps : CrawlDeps) (cfg : Config) (fuel : Nat)
    (st : DiscoveryState) (rng : Rng)
    (h : cfg.max_blogs ≤ st.discovered_blogs.length) :
    runLoop deps cfg fuel st rng = (st, rng) := by
  cases fuel with
  | zero => rfl
  | succ n =>
    simp only [runLoop]
    rw [if_pos (Or.inr h)]

/-- C4 witness: with target 3, three discovered blogs, and a non-empty
frontier, the loop consumes nothing. -/
theorem claim4_budget_stop_witness :
    (let info : BlogInfo :=
      { url := "https://a.com/", name := "A", feed_url := "https://a.com/feed",
        latest_post := { title := "t", link := "https://a.com/p", published := none,
                         summary := "", full_content := "", raw_html_content := "" } }
     let st : DiscoveryState :=
      { discovered_blogs := [("a.com", info), ("b.com", info), ("c.com", info)],
        blogs_to_process := [("https://d.com/", none)] }
     st.blogs_to_process ≠ [] ∧
       runLoop depsUnreachable { max_blogs := 3, queue_strategy := "mixed" } 100 st {} =
         (st, {})) :=
  ⟨by decide,
   claim4_budget_stop depsUnreachable { max_blogs := 3, queue_strategy := "mixed" } 100 _ {}
     (by decide)⟩

/-- C3 counterexample: with an explicitly requested checkpoint path whose file
is missing, startup is not fatal — the engine starts with a fresh empty state,
contradicting "startup is fatal and the run does not proceed". -/
theorem claim3_counterexample :
    engine_init (some "old/ckpt.json") "crawler_checkpoint.json" (fun _ => .missing) =
        .started DiscoveryState.empty ∧
      engine_init (some "old/ckpt.json") "crawler_checkpoint.json" (fun _ => .missing) ≠
        .fatalErr := by
  constructor
  · rfl
  · decide

/-- C3 (amended): a checkpoint load failure is never fatal — whether or not an
explicit path was requested, `load_checkpoint` swallows the failure (logging
it) and `__init__` proceeds with a fresh empty state. -/
theorem claim3_amended (explicitPath : Option String) (defaultPath : String)
    (fs : String → FileRead)
    (h : fs (resolvePath explicitPath defaultPath) = .missing ∨
         fs (resolvePath explicitPath defaultPath) = .invalid) :
    engine_init explicitPath defaultPath fs = .started DiscoveryState.empty := by
  cases h with
  | inl hm => simp only [engine_init, load_checkpoint, hm]
  | inr hi => simp only [engine_init, load_checkpoint, hi]

/-- C3 amended witness: a concrete unparseable explicit checkpoint. -/
theorem claim3_amended_witness :
    engine_init (some "bad.json") "crawler_checkpoint.json" (fun _ => .invalid) =
      .started DiscoveryState.empty :=
  claim3_amended (some "bad.json") "crawler_checkpoint.json" (fun _ => .invalid)
    (Or.inr rfl)

/-- C2 counterexample: a reachable state for which save-then-load does not
reproduce the state.  A full run on two seeds sharing domain `a.com` with
budget 1 ends with `queued_domains = ∅` but the duplicate seed still pending;
loading the saved checkpoint triggers the backward-compatibility rebuild and
yields `queued_domains = {"a.com"}`, so the loaded state differs. -/
theorem claim2_counterexample :
    finalA.queued_domains = (∅ : Finset String) ∧
      finalA.blogs_to_process = [("https://a.com/x", none)] ∧
      (load_checkpoint none "crawler_checkpoint.json"
          (fun _ => .valid (save_checkpoint finalA)) DiscoveryState.empty).1.queued_domains =
        {"a.com"} ∧
      (load_checkpoint none "crawler_checkpoint.json"
          (fun _ => .valid (save_checkpoint finalA)) DiscoveryState.empty).1 ≠ finalA := by
  refine ⟨by decide, by decide, by decide, ?_⟩
  intro h
  have h2 := congrArg DiscoveryState.queued_domains h
  revert h2
  decide

/-- C2 (amended): save-then-load into a fresh engine reproduces the state
exactly whenever the saved `queued_domains` is non-empty or the saved frontier
is empty; otherwise only `queued_domains` may change (it is rebuilt from the
frontier by the backward-compatibility branch). -/
theorem claim2_amended (st : DiscoveryState) (defaultPath : String)
    (h : st.queued_domains ≠ (∅ : Finset String) ∨ st.blogs_to_process = []) :
    (load_checkpoint none defaultPath (fun _ => .valid (save_checkpoint st))
        DiscoveryState.empty).1 = st := by
  simp only [load_checkpoint, save_checkpoint, resolvePath]
  cases h with
  | inl hne =>
    rw [if_neg]
    intro hc
    exact hne hc.1
  | inr hq =>
    rw [if_neg]
    intro hc
    rw [hq] at hc
    exact hc.2 List.isEmpty_nil

/-- C2 amended witness: a concrete mid-run state with a tracked pending item
round-trips exactly. -/
theorem claim2_amended_witness :
    (let st : DiscoveryState :=
      { processed_domains := {"b.com"}, failed_domains := {"b.com"},
        queued_domains := {"a.com"},
        blogs_to_process := [("https://a.com/", none)] }
     (load_checkpoint none "crawler_checkpoint.json"
        (fun _ => .valid (save_checkpoint st)) DiscoveryState.empty).1 = st) :=
  claim2_amended _ "crawler_checkpoint.json" (Or.inl (by decide))

/-- Membership after a Python-dict insertion: the new pair or an old one. -/
theorem dictInsert_mem {α : Type} {k : String} {v : α} {l : List (String × α)}
    {kv : String × α} (h : kv ∈ dictInsert k v l) : kv = (k, v) ∨ kv ∈ l := by
  induction l with
  | nil =>
    simp only [dictInsert, List.mem_singleton] at h
    exact Or.inl h
  | cons hd tl ih =>
    simp only [dictInsert] at h
    by_cases he : hd.1 = k
    · rw [if_pos he] at h
      rcases List.mem_cons.mp h with h1 | h1
      · exact Or.inl h1
      · exact Or.inr (List.mem_cons_of_mem _ h1)
    · rw [if_neg he] at h
      rcases List.mem_cons.mp h with h1 | h1
      · exact Or.inr (h1 ▸ List.mem_cons_self _ _)
      · rcases ih h1 with h2 | h2
        · exact Or.inl h2
        · exact Or.inr (List.mem_cons_of_mem _ h2)

/-- The enqueueing loop touches only the frontier and `queued_domains`. -/
theorem enqueueCandidates_fields (cfg : Config) (cd : Nat)
    (nbs : List (String × QSource)) :
    ∀ (st : DiscoveryState) (rng : Rng),
      (enqueueCandidates cfg cd nbs st rng).1.discovered_blogs = st.discovered_blogs ∧
      (enqueueCandidates cfg cd nbs st rng).1.processed_domains = st.processed_domains ∧
      (enqueueCandidates cfg cd nbs st rng).1.failed_domains = st.failed_domains ∧
      (enqueueCandidates cfg cd nbs st rng).1.failed_base_domains = st.failed_base_domains := by
  induction nbs with
  | nil => intro st rng; exact ⟨rfl, rfl, rfl, rfl⟩
  | cons nb rest ih =>
    intro st rng
    simp only [enqueueCandidates, List.foldl_cons]
    by_cases hc : extract_domain nb.1 ≠ "" ∧ extract_domain nb.1 ∉ st.processed_domains ∧
        extract_domain nb.1 ∉ st.queued_domains
    · rw [if_pos hc]
      have h := ih { st with
        blogs_to_process := (add_to_queue cfg.queue_strategy
          (nb.1, some { nb.2 with parent_depth := cd }) (cd + 1) st.blogs_to_process rng).1
        queued_domains := insert (extract_domain nb.1) st.queued_domains }
        (add_to_queue cfg.queue_strategy (nb.1, some { nb.2 with parent_depth := cd })
          (cd + 1) st.blogs_to_process rng).2
      simpa only [enqueueCandidates] using h
    · rw [if_neg hc]
      simpa only [enqueueCandidates] using ih st rng

/-- The `discovery_source` dict keeps the source blog URL and name in the
fields of `DiscoveredFrom`, and the mismatched post keys are dropped, leaving
`post_link = None`. -/
theorem model_validate_discoverySource (si : QSource) :
    DiscoveredFrom.model_validate (discoverySourceDict si) =
      some { source_blog := si.source_blog,
             source_blog_name := some si.source_blog_name,
             post_link := none } := rfl

/-- The enqueueing loop leaves the discovered-blogs map unchanged. -/
theorem enqueueCandidates_discovered (cfg : Config) (cd : Nat)
    (nbs : List (String × QSource)) (st : DiscoveryState) (rng : Rng) :
    (enqueueCandidates cfg cd nbs st rng).1.discovered_blogs = st.discovered_blogs :=
  (enqueueCandidates_fields cfg cd nbs st rng).1

/-- The enqueueing loop leaves `processed_domains` unchanged. -/
theorem enqueueCandidates_processed (cfg : Config) (cd : Nat)
    (nbs : List (String × QSource)) (st : DiscoveryState) (rng : Rng) :
    (enqueueCandidates cfg cd nbs st rng).1.processed_domains = st.processed_domains :=
  (enqueueCandidates_fields cfg cd nbs st rng).2.1

/-- The enqueueing loop leaves `failed_domains` unchanged. -/
theorem enqueueCandidates_failed (cfg : Config) (cd : Nat)
    (nbs : List (String × QSource)) (st : DiscoveryState) (rng : Rng) :
    (enqueueCandidates cfg cd nbs st rng).1.failed_domains = st.failed_domains :=
  (enqueueCandidates_fields cfg cd nbs st rng).2.2.1

/-- The enqueueing loop leaves `failed_base_domains` unchanged. -/
theorem enqueueCandidates_failedBase (cfg : Config) (cd : Nat)
    (nbs : List (String × QSource)) (st : DiscoveryState) (rng : Rng) :
    (enqueueCandidates cfg cd nbs st rng).1.failed_base_domains = st.failed_base_domains :=
  (enqueueCandidates_fields cfg cd nbs st rng).2.2.2

/-- The feed-trial loop preserves clean provenance. -/
theorem tryFeeds_provClean (deps : CrawlDeps) (cfg : Config)
    (blog_url domain base_domain : String) (source_info : Option QSource) :
    ∀ (feeds : List String) (st : DiscoveryState) (rng : Rng), ProvClean st →
      ProvClean (tryFeeds deps cfg blog_url domain base_domain source_info st rng feeds).state := by
  intro feeds
  induction feeds with
  | nil =>
    intro st rng h
    simp only [tryFeeds]
    split
    · exact h
    · exact h
  | cons feed_url rest ih =>
    intro st rng h
    simp only [tryFeeds]
    split
    · exact ih st rng h
    · intro kv hkv df hdf
      rw [enqueueCandidates_discovered] at hkv
      rcases dictInsert_mem hkv with h1 | h1
      · rw [h1] at hdf
        cases hsi : source_info with
        | none => rw [hsi] at hdf; simp at hdf
        | some si =>
          rw [hsi] at hdf
          have h2 : DiscoveredFrom.model_validate (discoverySourceDict si) = some df := hdf
          rw [model_validate_discoverySource] at h2
          rw [← Option.some.inj h2]
      · exact h kv h1 df hdf

/-- C10: every `BlogRecord` created with provenance stores only the source
blog URL and source blog name; its `post_link` field is always `None`, because
the link extractor's `source_post_title`/`source_post_link` keys do not match
the `DiscoveredFrom` model's fields and are dropped at record creation — and
consequently `crawl_blog` preserves the all-provenance-clean invariant of the
discovered-blogs map. -/
theorem claim10_post_link_none :
    (∀ si : QSource,
      DiscoveredFrom.model_validate (discoverySourceDict si) =
        some { source_blog := si.source_blog,
               source_blog_name := some si.source_blog_name,
               post_link := none }) ∧
    (∀ (deps : CrawlDeps) (cfg : Config) (st : DiscoveryState) (blog_url : String)
       (source_info : Option QSource) (rng : Rng), ProvClean st →
        ProvClean (crawl_blog deps cfg st blog_url source_info rng).state) := by
  refine ⟨model_validate_discoverySource, ?_⟩
  intro deps cfg st blog_url source_info rng h
  simp only [crawl_blog]
  split
  · exact h
  · split
    · exact h
    · split
      · exact h
      · split
        · exact h
        · split
          · split
            · exact h
            · exact h
          · split
            · split
              · exact h
              · exact h
            · split
              · exact h
              · exact tryFeeds_provClean deps cfg blog_url _ _ source_info _ _ rng h

/-- C10 witness: starting from a clean state, a successful crawl with
provenance stores `post_link = none`. -/
theorem claim10_post_link_none_witness :
    (let si : QSource := { source_blog := "https://s.com/", source_blog_name := "S",
                           source_post_title := "T", source_post_link := "https://s.com/t" }
     let r := crawl_blog (CrawlDeps.ofNet netA) cfgA DiscoveryState.empty
       "https://a.com/" (some si) {}
     ProvClean r.state ∧
       (assocLookup r.state.discovered_blogs "a.com").map
           (fun info => info.discovered_from.map (fun df => df.post_link)) =
         some (some none)) :=
  ⟨claim10_post_link_none.2 (CrawlDeps.ofNet netA) cfgA DiscoveryState.empty
      "https://a.com/" _ {} (by intro kv hkv; simp [DiscoveryState.empty] at hkv),
   by decide⟩

/-- Folding the keep-if-absent step yields a non-empty list whenever the path
list or the accumulator is non-empty. -/
theorem appendFold_ne_nil (env : NetEnv) (url : String) :
    ∀ (ps : List String) (acc : List String), ps ≠ [] ∨ acc ≠ [] →
      ps.foldl (fun acc p =>
        let fu := env.urljoin url p
        if fu ∈ acc then acc else acc ++ [fu]) acc ≠ [] := by
  intro ps
  induction ps with
  | nil =>
    intro acc h
    rcases h with h | h
    · exact absurd rfl h
    · exact h
  | cons p rest ih =>
    intro acc _
    rw [List.foldl_cons]
    by_cases hm : env.urljoin url p ∈ acc
    · have hacc : acc ≠ [] := by
        intro hc
        rw [hc] at hm
        exact List.not_mem_nil _ hm
      refine ih _ (Or.inr ?_)
      simp only [hm, if_pos]
      exact hacc
    · refine ih _ (Or.inr ?_)
      simp only [hm, if_neg]
      simp

/-- The generic common-feed-path stage always produces a non-empty list. -/
theorem appendCommonFeeds_ne_nil (env : NetEnv) (url : String)
    (feed_urls : List String) : appendCommonFeeds env url feed_urls ≠ [] :=
  appendFold_ne_nil env url commonFeedPaths feed_urls
    (Or.inl (by simp [commonFeedPaths]))

/-- The candidate cap keeps the list non-empty. -/
theorem capFeeds_ne_nil (l : List String) (h : l ≠ []) :
    (if 15 < l.length then l.take 10 ++ (l.drop 10).take 5 else l) ≠ [] := by
  by_cases h15 : 15 < l.length
  · rw [if_pos h15]
    intro hc
    have h10 : (l.take 10).length = 10 := by
      rw [List.length_take]
      omega
    have := congrArg List.length hc
    rw [List.length_append, h10] at this
    simp at this
  · rw [if_neg h15]; exact h

/-- The assembled candidate list is never empty. -/
theorem discoverCandidates_ne_nil (env : NetEnv) (url body : String) :
    discoverCandidates env url body ≠ [] := by
  unfold discoverCandidates
  exact capFeeds_ne_nil _ (appendCommonFeeds_ne_nil env url _)

/-- A successful parse always classifies as `success` with its non-empty
candidate list. -/
theorem discoverParse_success (env : NetEnv) (url body : String) :
    (discoverParse env url body).1 ≠ [] ∧ (discoverParse env url body).2 = Status.success := by
  have h := discoverCandidates_ne_nil env url body
  have hb : (discoverCandidates env url body).isEmpty = false := by
    cases hdc : discoverCandidates env url body with
    | nil => exact absurd hdc h
    | cons x xs => rfl
  simp only [discoverParse, hb, Bool.not_false, if_true]
  exact ⟨h, trivial⟩

/-- C8: whenever the root-page fetch succeeds (no exception, status below 400)
and the HTML parse does not raise, `discover_feeds` returns a non-empty
candidate list with status `success` (the fixed generic common feed paths are
always appended); moreover, on every input its status is either `success` or
`unreachable`, so the orchestrator's `has_blog_indicators` and
`no_blog_indicators` branches are unreachable. -/
theorem claim8_discover_statuses (env : NetEnv) (url : String) :
    (∀ code body, env.resp url = some (code, body) → code < 400 →
       env.parseFailsRoot body = false →
       (discover_feeds env url).1.1 ≠ [] ∧ (discover_feeds env url).1.2 = Status.success) ∧
    ((discover_feeds env url).1.2 = Status.success ∨
     (discover_feeds env url).1.2 = Status.unreachable) := by
  constructor
  · intro code body hresp hcode hparse
    simp only [discover_feeds, hresp]
    rw [if_neg (by omega), if_neg (by simp [hparse])]
    exact ⟨(discoverParse_success env url body).1, (discoverParse_success env url body).2⟩
  · cases hresp : env.resp url with
    | none => simp [discover_feeds, hresp]
    | some cb =>
      obtain ⟨code, body⟩ := cb
      simp only [discover_feeds, hresp]
      by_cases h4 : 400 ≤ code
      · rw [if_pos h4]; exact Or.inr rfl
      · rw [if_neg h4]
        by_cases hp : env.parseFailsRoot body
        · rw [if_pos hp]; exact Or.inr rfl
        · rw [if_neg hp]
          exact Or.inl (discoverParse_success env url body).2

/-- C8 witness: a concrete reachable page yields the 14 generic candidates and
status `success`. -/
theorem claim8_discover_statuses_witness :
    (discover_feeds netA "https://a.com/").1.1 ≠ [] ∧
      (discover_feeds netA "https://a.com/").1.2 = Status.success :=
  (claim8_discover_statuses netA "https://a.com/").1 200 "root" (by decide) (by decide)
    (by decide)

/-- A drawn `randint(0, hi)` value is always within range. -/
theorem Rng.nextNat_le (hi : Nat) (rng : Rng) : (rng.nextNat hi).1 ≤ hi := by
  cases rng with
  | mk bits nats =>
    cases nats with
    | nil => exact Nat.zero_le _
    | cons n ns =>
      simp only [Rng.nextNat]
      exact Nat.lt_succ_iff.mp (Nat.mod_lt _ (Nat.succ_pos _))

/-- Unfolding equation for the `random` policy. -/
theorem add_to_queue_random_eq (item : FrontierItem) (d : Nat)
    (q : List FrontierItem) (rng : Rng) :
    add_to_queue "random" item d q rng =
      if q.length = 0 then (q ++ [item], rng)
      else (q.insertIdx (rng.nextNat q.length).1 item, (rng.nextNat q.length).2) := rfl

/-- Unfolding equation for the `mixed` policy. -/
theorem add_to_queue_mixed_eq (item : FrontierItem) (d : Nat)
    (q : List FrontierItem) (rng : Rng) :
    add_to_queue "mixed" item d q rng =
      if 0 < d then
        if rng.nextBit.1 && !q.isEmpty then
          (q.insertIdx ((rng.nextBit.2).nextNat (max 1 (q.length / 2))).1 item,
           ((rng.nextBit.2).nextNat (max 1 (q.length / 2))).2)
        else (q ++ [item], rng.nextBit.2)
      else (q ++ [item], rng) := rfl

/-- C5: the scheduler inserts according to the configured policy:
`breadth_first` always appends to the back; `depth_first` always inserts at
the front; `random` inserts at the drawn index, every index in `[0, length]`
being realisable; `mixed` inserts at a drawn index in `[0, max 1 (length/2)]`
exactly when the item's depth > 0, the queue is non-empty and the coin flip
succeeds (every such index realisable), and otherwise appends to the back; an
invalid configured policy name falls back to `mixed`; and the main loop always
consumes from the front. -/
theorem claim5_scheduler :
    (∀ (item : FrontierItem) (d : Nat) (q : List FrontierItem) (rng : Rng),
      add_to_queue "breadth_first" item d q rng = (q ++ [item], rng)) ∧
    (∀ (item : FrontierItem) (d : Nat) (q : List FrontierItem) (rng : Rng),
      add_to_queue "depth_first" item d q rng = (item :: q, rng)) ∧
    (∀ (item : FrontierItem) (d : Nat) (q : List FrontierItem) (rng : Rng),
      ∃ i ≤ q.length, (add_to_queue "random" item d q rng).1 = q.insertIdx i item) ∧
    (∀ (item : FrontierItem) (d : Nat) (q : List FrontierItem) (i : Nat),
      i ≤ q.length →
        ∃ rng : Rng, (add_to_queue "random" item d q rng).1 = q.insertIdx i item) ∧
    (∀ (item : FrontierItem) (d : Nat) (q : List FrontierItem) (rng : Rng),
      0 < d → (rng.nextBit.1 = true ∧ q ≠ []) →
        ∃ i ≤ max 1 (q.length / 2),
          (add_to_queue "mixed" item d q rng).1 = q.insertIdx i item) ∧
    (∀ (item : FrontierItem) (d : Nat) (q : List FrontierItem) (rng : Rng),
      d = 0 ∨ rng.nextBit.1 = false ∨ q = [] →
        (add_to_queue "mixed" item d q rng).1 = q ++ [item]) ∧
    (∀ (item : FrontierItem) (d : Nat) (q : List FrontierItem) (i : Nat),
      0 < d → i ≤ max 1 (q.length / 2) → q ≠ [] →
        ∃ rng : Rng, (add_to_queue "mixed" item d q rng).1 = q.insertIdx i item) ∧
    (∀ s : String, s ∉ validStrategies → validate_strategy s = "mixed") ∧
    (∀ (deps : CrawlDeps) (cfg : Config) (st : DiscoveryState) (rng : Rng)
       (url : String) (si : Option QSource) (rest : List FrontierItem),
      st.blogs_to_process = (url, si) :: rest →
        loopStep deps cfg st rng =
          ((crawl_blog deps cfg
              { st with blogs_to_process := rest
                        queued_domains := st.queued_domains.erase (extract_domain url) }
              url si rng).state,
           (crawl_blog deps cfg
              { st with blogs_to_process := rest
                        queued_domains := st.queued_domains.erase (extract_domain url) }
              url si rng).rng)) := by
  refine ⟨fun item d q rng => rfl, fun item d q rng => rfl, ?_, ?_, ?_, ?_, ?_, ?_, ?_⟩
  · intro item d q rng
    rw [add_to_queue_random_eq]
    by_cases hq : q.length = 0
    · refine ⟨0, Nat.zero_le _, ?_⟩
      rw [if_pos hq, List.eq_nil_of_length_eq_zero hq]
      rfl
    · refine ⟨(rng.nextNat q.length).1, Rng.nextNat_le _ _, ?_⟩
      rw [if_neg hq]
  · intro item d q i hi
    refine ⟨⟨[], [i]⟩, ?_⟩
    rw [add_to_queue_random_eq]
    by_cases hq : q.length = 0
    · have hq0 : q = [] := List.eq_nil_of_length_eq_zero hq
      subst hq0
      have hi0 : i = 0 := Nat.le_zero.mp hi
      subst hi0
      rfl
    · rw [if_neg hq]
      simp only [Rng.nextNat]
      rw [Nat.mod_eq_of_lt (by omega)]
  · intro item d q rng hd hcoin
    refine ⟨((rng.nextBit.2).nextNat (max 1 (q.length / 2))).1, Rng.nextNat_le _ _, ?_⟩
    rw [add_to_queue_mixed_eq, if_pos hd]
    have hqe : q.isEmpty = false := by
      cases q with
      | nil => exact absurd rfl hcoin.2
      | cons x xs => rfl
    rw [if_pos (by simp [hcoin.1, hqe])]
  · intro item d q rng h
    rw [add_to_queue_mixed_eq]
    rcases h with h | h | h
    · rw [if_neg (by omega)]
    · by_cases hd : 0 < d
      · rw [if_pos hd, if_neg (by simp [h])]
      · rw [if_neg hd]
    · by_cases hd : 0 < d
      · rw [if_pos hd, if_neg (by simp [h])]
      · rw [if_neg hd]
  · intro item d q i hd hi hq
    refine ⟨⟨[true], [i]⟩, ?_⟩
    rw [add_to_queue_mixed_eq, if_pos hd]
    have hqe : q.isEmpty = false := by
      cases q with
      | nil => exact absurd rfl hq
      | cons x xs => rfl
    rw [if_pos (by simp [Rng.nextBit, hqe])]
    simp only [Rng.nextBit, Rng.nextNat]
    rw [Nat.mod_eq_of_lt (by omega)]
  · intro s hs
    simp only [validate_strategy, if_neg hs]
  · intro deps cfg st rng url si rest h
    simp only [loopStep, h]

/-- C5 witness: concrete draws realise each policy's insertion behaviour, and
an invalid policy name validates to `mixed`. -/
theorem claim5_scheduler_witness :
    (add_to_queue "breadth_first" ("https://c.com/", none) 0
        [("https://a.com/", none), ("https://b.com/", none)] {} =
      ([("https://a.com/", none), ("https://b.com/", none), ("https://c.com/", none)], {})) ∧
    (∃ rng : Rng, (add_to_queue "random" ("https://c.com/", none) 0
        [("https://a.com/", none), ("https://b.com/", none)] rng).1 =
      [("https://a.com/", none), ("https://b.com/", none)].insertIdx 1 ("https://c.com/", none)) ∧
    validate_strategy "bogus" = "mixed" := by
  obtain ⟨hb, _, _, hr, _, _, _, hv, _⟩ := claim5_scheduler
  exact ⟨hb _ _ _ _,
    hr ("https://c.com/", none) 0 [("https://a.com/", none), ("https://b.com/", none)] 1
      (by decide),
    hv "bogus" (by decide)⟩

set_option maxRecDepth 4000 in
/-- C1: when a visited item reaches feed discovery (non-empty domain, base not
blacklisted, domain not yet processed, robots allowed) and the status is
`unreachable` or `no_blog_indicators`, the orchestrator adds the canonical
domain to `failed_domains` and adds the base domain to `failed_base_domains`
if and only if the domain equals its own base domain (is not a subdomain). -/
theorem claim1_blacklist_asymmetry (deps : CrawlDeps) (cfg : Config)
    (st : DiscoveryState) (blog_url : String) (source_info : Option QSource) (rng : Rng)
    (hdom : extract_domain blog_url ≠ "")
    (hbase : get_base_domain (extract_domain blog_url) ∉ st.failed_base_domains)
    (hproc : extract_domain blog_url ∉ st.processed_domains)
    (hrob : deps.robotsAllowed blog_url = true)
    (hstat : (deps.discover blog_url).2 = Status.unreachable ∨
             (deps.discover blog_url).2 = Status.no_blog_indicators) :
    (crawl_blog deps cfg st blog_url source_info rng).ok = false ∧
    (crawl_blog deps cfg st blog_url source_info rng).state.failed_domains =
      insert (extract_domain blog_url) st.failed_domains ∧
    (crawl_blog deps cfg st blog_url source_info rng).state.failed_base_domains =
      (if extract_domain blog_url = get_base_domain (extract_domain blog_url) then
        insert (get_base_domain (extract_domain blog_url)) st.failed_base_domains
      else st.failed_base_domains) := by
  have hrob2 : ¬ ¬ (deps.robotsAllowed blog_url = true) := fun hc => hc hrob
  simp only [crawl_blog]
  rw [if_neg hdom, if_neg hbase, if_neg hproc, if_neg hrob2]
  rcases hstat with hstat | hstat
  · rw [if_pos hstat]
    by_cases hsub : extract_domain blog_url = get_base_domain (extract_domain blog_url)
    · rw [if_pos hsub, if_pos hsub]
      exact ⟨rfl, rfl, rfl⟩
    · rw [if_neg hsub, if_neg hsub]
      exact ⟨rfl, rfl, rfl⟩
  · have hne : ¬ ((deps.discover blog_url).2 = Status.unreachable) := by
      rw [hstat]
      decide
    rw [if_neg hne, if_pos hstat]
    by_cases hsub : extract_domain blog_url = get_base_domain (extract_domain blog_url)
    · rw [if_pos hsub, if_pos hsub]
      exact ⟨rfl, rfl, rfl⟩
    · rw [if_neg hsub, if_neg hsub]
      exact ⟨rfl, rfl, rfl⟩

/-- C1 witness: an unreachable non-subdomain `example.com` blacklists base
`example.com`, while an unreachable subdomain `blog.example.org` does not add
`example.org` to `failed_base_domains`. -/
theorem claim1_blacklist_asymmetry_witness :
    (crawl_blog depsUnreachable cfgA DiscoveryState.empty "https://example.com/" none
        {}).state.failed_base_domains = {"example.com"} ∧
    (crawl_blog depsUnreachable cfgA DiscoveryState.empty "https://blog.example.org/" none
        {}).state.failed_base_domains = (∅ : Finset String) ∧
    (crawl_blog depsUnreachable cfgA DiscoveryState.empty "https://blog.example.org/" none
        {}).state.failed_domains = {"blog.example.org"} := by
  have h1 := claim1_blacklist_asymmetry depsUnreachable cfgA DiscoveryState.empty
    "https://example.com/" none {} (by decide) (by decide) (by decide) rfl (Or.inl rfl)
  have h2 := claim1_blacklist_asymmetry depsUnreachable cfgA DiscoveryState.empty
    "https://blog.example.org/" none {} (by decide) (by decide) (by decide) rfl (Or.inl rfl)
  refine ⟨?_, ?_, ?_⟩
  · rw [h1.2.2]
    decide
  · rw [h2.2.2]
    decide
  · rw [h2.2.1]
    decide

/-- When the feed-trial loop fails, it leaves the discovered map, the
frontier, `queued_domains`, `processed_domains` and the random stream
untouched (it only adds to the failure sets). -/
theorem tryFeeds_fail_frame (deps : CrawlDeps) (cfg : Config)
    (blog_url domain base_domain : String) (source_info : Option QSource) :
    ∀ (feeds : List String) (st : DiscoveryState) (rng : Rng),
      (tryFeeds deps cfg blog_url domain base_domain source_info st rng feeds).ok = false →
      (tryFeeds deps cfg blog_url domain base_domain source_info st rng feeds).state.discovered_blogs
          = st.discovered_blogs ∧
      (tryFeeds deps cfg blog_url domain base_domain source_info st rng feeds).state.blogs_to_process
          = st.blogs_to_process ∧
      (tryFeeds deps cfg blog_url domain base_domain source_info st rng feeds).state.queued_domains
          = st.queued_domains ∧
      (tryFeeds deps cfg blog_url domain base_domain source_info st rng feeds).state.processed_domains
          = st.processed_domains ∧
      (tryFeeds deps cfg blog_url domain base_domain source_info st rng feeds).rng = rng := by
  intro feeds
  induction feeds with
  | nil =>
    intro st rng hok
    simp only [tryFeeds]
    split
    · exact ⟨rfl, rfl, rfl, rfl, rfl⟩
    · exact ⟨rfl, rfl, rfl, rfl, rfl⟩
  | cons feed_url rest ih =>
    intro st rng hok
    simp only [tryFeeds] at hok ⊢
    split at hok
    · exact ih st rng hok
    · exact absurd hok (by simp)

/-- C9: whenever `crawl_blog` returns `False` (any skip or failure outcome),
`discovered_blogs` and the frontier queue are unchanged — and so are
`queued_domains` and the random stream; a record is inserted and candidates
enqueued only on the success path that returns `True`. -/
theorem claim9_failure_frame (deps : CrawlDeps) (cfg : Config) (st : DiscoveryState)
    (blog_url : String) (source_info : Option QSource) (rng : Rng)
    (hok : (crawl_blog deps cfg st blog_url source_info rng).ok = false) :
    (crawl_blog deps cfg st blog_url source_info rng).state.discovered_blogs
        = st.discovered_blogs ∧
    (crawl_blog deps cfg st blog_url source_info rng).state.blogs_to_process
        = st.blogs_to_process ∧
    (crawl_blog deps cfg st blog_url source_info rng).state.queued_domains
        = st.queued_domains ∧
    (crawl_blog deps cfg st blog_url source_info rng).rng = rng := by
  revert hok
  simp only [crawl_blog]
  by_cases h1 : extract_domain blog_url = ""
  · rw [if_pos h1]
    exact fun _ => ⟨rfl, rfl, rfl, rfl⟩
  · rw [if_neg h1]
    by_cases h2 : get_base_domain (extract_domain blog_url) ∈ st.failed_base_domains
    · rw [if_pos h2]
      exact fun _ => ⟨rfl, rfl, rfl, rfl⟩
    · rw [if_neg h2]
      by_cases h3 : extract_domain blog_url ∈ st.processed_domains
      · rw [if_pos h3]
        exact fun _ => ⟨rfl, rfl, rfl, rfl⟩
      · rw [if_neg h3]
        by_cases h4 : ¬ (deps.robotsAllowed blog_url = true)
        · rw [if_pos h4]
          exact fun _ => ⟨rfl, rfl, rfl, rfl⟩
        · rw [if_neg h4]
          by_cases h5 : (deps.discover blog_url).2 = Status.unreachable
          · rw [if_pos h5]
            by_cases hsub : extract_domain blog_url =
                get_base_domain (extract_domain blog_url)
            · rw [if_pos hsub]
              exact fun _ => ⟨rfl, rfl, rfl, rfl⟩
            · rw [if_neg hsub]
              exact fun _ => ⟨rfl, rfl, rfl, rfl⟩
          · rw [if_neg h5]
            by_cases h6 : (deps.discover blog_url).2 = Status.no_blog_indicators
            · rw [if_pos h6]
              by_cases hsub : extract_domain blog_url =
                  get_base_domain (extract_domain blog_url)
              · rw [if_pos hsub]
                exact fun _ => ⟨rfl, rfl, rfl, rfl⟩
              · rw [if_neg hsub]
                exact fun _ => ⟨rfl, rfl, rfl, rfl⟩
            · rw [if_neg h6]
              by_cases h7 : (deps.discover blog_url).1.isEmpty = true
              · rw [if_pos h7]
                exact fun _ => ⟨rfl, rfl, rfl, rfl⟩
              · rw [if_neg h7]
                intro hok
                have h := tryFeeds_fail_frame deps cfg blog_url
                  (extract_domain blog_url) (get_base_domain (extract_domain blog_url))
                  source_info (deps.discover blog_url).1 _ rng hok
                exact ⟨h.1, h.2.1, h.2.2.1, h.2.2.2.2⟩

/-- C9 witness: a concrete failing crawl leaves the discovered map, frontier
and queued set of a populated state unchanged. -/
theorem claim9_failure_frame_witness :
    (let st : DiscoveryState :=
      { queued_domains := {"b.com"}, blogs_to_process := [("https://b.com/", none)] }
     (crawl_blog depsUnreachable cfgA st "https://example.com/" none {}).state.discovered_blogs
         = st.discovered_blogs ∧
     (crawl_blog depsUnreachable cfgA st "https://example.com/" none {}).state.blogs_to_process
         = st.blogs_to_process ∧
     (crawl_blog depsUnreachable cfgA st "https://example.com/" none {}).state.queued_domains
         = st.queued_domains ∧
     (crawl_blog depsUnreachable cfgA st "https://example.com/" none {}).rng = {}) :=
  claim9_failure_frame depsUnreachable cfgA _ "https://example.com/" none {} (by decide)

/-- Every event the sitemap loop emits is an HTTP GET (never a rate-limiter
invocation). -/
theorem sitemapLoop_no_rate (env : NetEnv) (base_url : String) :
    ∀ (paths : List String) (acc : List String),
      ∀ e ∈ (sitemapLoop env base_url acc paths).2, e.isRate = false := by
  intro paths
  induction paths with
  | nil => intro acc e he; exact absurd he (List.not_mem_nil e)
  | cons p ps ih =>
    intro acc e he
    simp only [sitemapLoop] at he
    split at he
    · split at he
      · rcases List.mem_cons.mp he with h | h
        · rw [h]; rfl
        · exact ih _ e h
      · simp only [List.mem_singleton] at he
        rw [he]; rfl
    · rcases List.mem_cons.mp he with h | h
      · rw [h]; rfl
      · exact ih _ e h

/-- C6 (amended): the rate limiter is invoked (keyed by the target's domain)
before the root-page fetch in `discover_feeds` and before every feed fetch in
`fetch_feed`; but the robots.txt fetch of the validator and the robots/sitemap
fetches of `check_sitemap` are performed without any rate-limiter
invocation. -/
theorem claim6_rate_limit_coverage :
    (∀ (env : NetEnv) (url : String), extract_domain url ≠ "" →
      ∃ rest, (discover_feeds env url).2 =
        NetEvent.rateLimit (extract_domain url) :: NetEvent.httpGet url :: rest) ∧
    (∀ (env : NetEnv) (feed_url : String), extract_domain feed_url ≠ "" →
      (fetch_feed env feed_url).2 =
        [NetEvent.rateLimit (extract_domain feed_url), NetEvent.httpGet feed_url]) ∧
    (∀ (env : NetEnv) (url : String) (e : NetEvent),
      e ∈ (check_sitemap env url).2 → e.isRate = false) ∧
    (∀ (env : NetEnv) (cached : Bool) (url : String) (e : NetEvent),
      e ∈ (is_allowed_by_robots env cached url).2 → e.isRate = false) := by
  refine ⟨?_, ?_, ?_, ?_⟩
  · intro env url hd
    have ht : enforceTrace (extract_domain url) ++ [NetEvent.httpGet url] =
        NetEvent.rateLimit (extract_domain url) :: [NetEvent.httpGet url] := by
      simp [enforceTrace, hd]
    cases hresp : env.resp url with
    | none => exact ⟨[], by simp only [discover_feeds, hresp]; rw [ht]⟩
    | some cb =>
      obtain ⟨code, body⟩ := cb
      simp only [discover_feeds, hresp]
      by_cases h4 : 400 ≤ code
      · rw [if_pos h4]
        exact ⟨[], by rw [ht]⟩
      · rw [if_neg h4]
        by_cases hp : env.parseFailsRoot body
        · rw [if_pos hp]
          exact ⟨[], by rw [ht]⟩
        · rw [if_neg hp]
          exact ⟨(check_sitemap env url).2, by rw [ht]; rfl⟩
  · intro env feed_url hd
    have ht : enforceTrace (extract_domain feed_url) ++ [NetEvent.httpGet feed_url] =
        [NetEvent.rateLimit (extract_domain feed_url), NetEvent.httpGet feed_url] := by
      simp [enforceTrace, hd]
    cases hresp : env.resp feed_url with
    | none => simp only [fetch_feed, hresp]; exact ht
    | some cb =>
      obtain ⟨code, body⟩ := cb
      simp only [fetch_feed, hresp]
      by_cases h2 : code = 200
      · rw [if_pos h2]; exact ht
      · rw [if_neg h2]; exact ht
  · intro env url e he
    simp only [check_sitemap] at he
    rcases List.mem_cons.mp he with h | h
    · rw [h]; rfl
    · exact sitemapLoop_no_rate env _ _ _ e h
  · intro env cached url e he
    simp only [is_allowed_by_robots] at he
    by_cases hd : extract_domain url = ""
    · rw [if_pos hd] at he
      exact absurd he (List.not_mem_nil e)
    · rw [if_neg hd] at he
      by_cases hc : cached = true
      · rw [if_pos hc] at he
        exact absurd he (List.not_mem_nil e)
      · rw [if_neg hc] at he
        rcases List.mem_cons.mp he with h | h
        · rw [h]; rfl
        · exact absurd h (List.not_mem_nil e)

/-- C6 amended witness: concrete traces — `discover_feeds` starts with a
rate-limiter invocation then the root GET; a feed fetch is exactly rate-limit
then GET; the sitemap and validator traces contain no rate-limit events. -/
theorem claim6_rate_limit_coverage_witness :
    (∃ rest, (discover_feeds netB "http://a.com").2 =
      NetEvent.rateLimit "a.com" :: NetEvent.httpGet "http://a.com" :: rest) ∧
    (fetch_feed netB "http://a.com/feed").2 =
      [NetEvent.rateLimit "a.com", NetEvent.httpGet "http://a.com/feed"] ∧
    (∀ e ∈ (check_sitemap netB "http://a.com").2, e.isRate = false) := by
  obtain ⟨h1, h2, h3, _⟩ := claim6_rate_limit_coverage
  exact ⟨h1 netB "http://a.com" (by decide),
    h2 netB "http://a.com/feed" (by decide),
    fun e he => h3 netB "http://a.com" e he⟩

/-- C6 counterexample: in a run where robots.txt and all four fallback sitemap
probes are attempted, `discover_feeds` performs six outbound GETs to domain
`a.com` under a single rate-limiter invocation for that domain — so the rate
limiter is not invoked before every outbound call (robots.txt and sitemap
fetches are unprotected). -/
theorem claim6_counterexample :
    ratesFor "a.com" (discover_feeds netB "http://a.com").2 = 1 ∧
      getsTo "a.com" (discover_feeds netB "http://a.com").2 = 6 ∧
      ratesFor "a.com" (discover_feeds netB "http://a.com").2 <
        getsTo "a.com" (discover_feeds netB "http://a.com").2 := by
  refine ⟨by decide, by decide, by decide⟩

/-- Unfold `domList` over a cons cell. -/
theorem domList_cons (it : FrontierItem) (q : List FrontierItem) :
    domList (it :: q) =
      if extract_domain it.1 = "" then domList q
      else extract_domain it.1 :: domList q := by
  by_cases h : extract_domain it.1 = ""
  · simp [domList, List.filter_cons, h]
  · simp [domList, List.filter_cons, h]

/-- Membership in `domList`. -/
theorem mem_domList {d : String} {q : List FrontierItem} :
    d ∈ domList q ↔ d ≠ "" ∧ ∃ it ∈ q, extract_domain it.1 = d := by
  constructor
  · intro h
    obtain ⟨hmap, hne⟩ := List.mem_filter.mp h
    obtain ⟨it, hit, heq⟩ := List.mem_map.mp hmap
    exact ⟨by simpa using hne, it, hit, heq⟩
  · intro h
    obtain ⟨hne, it, hit, heq⟩ := h
    exact List.mem_filter.mpr ⟨List.mem_map.mpr ⟨it, hit, heq⟩, by simpa using hne⟩

/-- Every scheduler insertion either leaves the queue unchanged (unvalidated
strategy) or produces a permutation of the item consed onto the queue. -/
theorem add_to_queue_result (s : String) (item : FrontierItem) (d : Nat)
    (q : List FrontierItem) (rng : Rng) :
    (add_to_queue s item d q rng).1 = q ∨
      (add_to_queue s item d q rng).1.Perm (item :: q) := by
  by_cases h1 : s = "breadth_first"
  · subst h1
    exact Or.inr (List.perm_append_singleton item q)
  · by_cases h2 : s = "depth_first"
    · subst h2
      exact Or.inr (List.Perm.refl _)
    · by_cases h3 : s = "random"
      · subst h3
        rw [add_to_queue_random_eq]
        by_cases hq : q.length = 0
        · rw [if_pos hq]
          exact Or.inr (List.perm_append_singleton item q)
        · rw [if_neg hq]
          exact Or.inr (List.perm_insertIdx item q (Rng.nextNat_le _ _))
      · by_cases h4 : s = "mixed"
        · subst h4
          rw [add_to_queue_mixed_eq]
          by_cases hd : 0 < d
          · rw [if_pos hd]
            by_cases hc : (rng.nextBit.1 && !q.isEmpty) = true
            · rw [if_pos hc]
              have hlen : 1 ≤ q.length := by
                cases q with
                | nil => simp at hc
                | cons x xs => simp
              exact Or.inr (List.perm_insertIdx item q
                (le_trans (Rng.nextNat_le _ _) (max_le hlen (Nat.div_le_self _ _))))
            · rw [if_neg hc]
              exact Or.inr (List.perm_append_singleton item q)
          · rw [if_neg hd]
            exact Or.inr (List.perm_append_singleton item q)
        · have hval : add_to_queue s item d q rng = (q, rng) := by
            simp only [add_to_queue, if_neg h1, if_neg h2, if_neg h3, if_neg h4]
          rw [hval]
          exact Or.inl rfl

/-- Constructor for `QueueInv` over an updated frontier and queued set. -/
theorem queueInv_update (st : DiscoveryState) (q : List FrontierItem)
    (s : Finset String) (h1 : (domList q).Nodup)
    (h2 : ∀ it ∈ q, extract_domain it.1 ≠ "" → extract_domain it.1 ∈ s) :
    QueueInv { st with blogs_to_process := q, queued_domains := s } :=
  ⟨h1, h2⟩

/-- The enqueueing loop preserves the one-pending-item-per-domain invariant:
each candidate is enqueued only when its (non-empty) domain is untracked, and
its domain is added to `queued_domains` in the same step. -/
theorem enqueueCandidates_queueInv (cfg : Config) (cd : Nat) :
    ∀ (nbs : List (String × QSource)) (st : DiscoveryState) (rng : Rng),
      QueueInv st → QueueInv (enqueueCandidates cfg cd nbs st rng).1 := by
  intro nbs
  induction nbs with
  | nil => intro st rng h; exact h
  | cons nb rest ih =>
    intro st rng h
    simp only [enqueueCandidates, List.foldl_cons]
    by_cases hg : extract_domain nb.1 ≠ "" ∧ extract_domain nb.1 ∉ st.processed_domains ∧
        extract_domain nb.1 ∉ st.queued_domains
    · rw [if_pos hg]
      obtain ⟨hne, hproc2, hqd⟩ := hg
      have hstep : QueueInv { st with
          blogs_to_process := (add_to_queue cfg.queue_strategy
            (nb.1, some { nb.2 with parent_depth := cd }) (cd + 1)
            st.blogs_to_process rng).1
          queued_domains := insert (extract_domain nb.1) st.queued_domains } := by
        rcases add_to_queue_result cfg.queue_strategy
            (nb.1, some { nb.2 with parent_depth := cd }) (cd + 1)
            st.blogs_to_process rng with hcase | hcase
        · refine queueInv_update st _ _ ?_ ?_
          · rw [hcase]
            exact h.1
          · intro it hit hitne
            rw [hcase] at hit
            exact Finset.mem_insert_of_mem (h.2 it hit hitne)
        · have hperm : (domList (add_to_queue cfg.queue_strategy
              (nb.1, some { nb.2 with parent_depth := cd }) (cd + 1)
              st.blogs_to_process rng).1).Perm
              (domList ((nb.1, some { nb.2 with parent_depth := cd }) ::
                st.blogs_to_process)) :=
            (hcase.map _).filter _
          refine queueInv_update st _ _ ?_ ?_
          · rw [hperm.nodup_iff, domList_cons, if_neg hne]
            refine List.nodup_cons.mpr ⟨?_, h.1⟩
            intro hmem
            obtain ⟨_, it, hit, heq⟩ := mem_domList.mp hmem
            exact hqd (heq ▸ h.2 it hit (heq.symm ▸ hne))
          · intro it hit hitne
            have hit2 : it ∈ (nb.1, some { nb.2 with parent_depth := cd }) ::
                st.blogs_to_process := hcase.subset hit
            rcases List.mem_cons.mp hit2 with hx | hx
            · rw [hx]
              exact Finset.mem_insert_self _ _
            · exact Finset.mem_insert_of_mem (h.2 it hx hitne)
      simpa only [enqueueCandidates] using ih _ _ hstep
    · rw [if_neg hg]
      simpa only [enqueueCandidates] using ih st rng h

/-- The feed-trial loop preserves the queue invariant. -/
theorem tryFeeds_queueInv (deps : CrawlDeps) (cfg : Config)
    (blog_url domain base_domain : String) (source_info : Option QSource) :
    ∀ (feeds : List String) (st : DiscoveryState) (rng : Rng), QueueInv st →
      QueueInv (tryFeeds deps cfg blog_url domain base_domain source_info st rng feeds).state := by
  intro feeds
  induction feeds with
  | nil =>
    intro st rng h
    simp only [tryFeeds]
    split
    · exact h
    · exact h
  | cons feed_url rest ih =>
    intro st rng h
    simp only [tryFeeds]
    split
    · exact ih st rng h
    · exact enqueueCandidates_queueInv cfg _ _ _ rng h

/-- `crawl_blog` preserves the queue invariant. -/
theorem crawl_blog_queueInv (deps : CrawlDeps) (cfg : Config) (st : DiscoveryState)
    (blog_url : String) (source_info : Option QSource) (rng : Rng) (h : QueueInv st) :
    QueueInv (crawl_blog deps cfg st blog_url source_info rng).state := by
  simp only [crawl_blog]
  split
  · exact h
  · split
    · exact h
    · split
      · exact h
      · split
        · exact h
        · split
          · split
            · exact h
            · exact h
          · split
            · split
              · exact h
              · exact h
            · split
              · exact h
              · exact tryFeeds_queueInv deps cfg blog_url _ _ source_info _ _ rng h

/-- One main-loop iteration preserves the queue invariant: the popped item's
domain is discarded from `queued_domains` exactly when its (unique) pending
item leaves the frontier. -/
theorem loopStep_queueInv (deps : CrawlDeps) (cfg : Config) (st : DiscoveryState)
    (rng : Rng) (h : QueueInv st) : QueueInv (loopStep deps cfg st rng).1 := by
  cases hq : st.blogs_to_process with
  | nil =>
    simp only [loopStep, hq]
    exact h
  | cons it rest =>
    obtain ⟨url, si⟩ := it
    simp only [loopStep, hq]
    apply crawl_blog_queueInv
    have h1 : (domList ((url, si) :: rest)).Nodup := by
      have := h.1
      simp only [QueueInv, queueDomains] at this ⊢
      rw [hq] at this
      exact this
    refine queueInv_update st rest (st.queued_domains.erase (extract_domain url)) ?_ ?_
    · by_cases hd : extract_domain url = ""
      · rw [domList_cons, if_pos hd] at h1
        exact h1
      · rw [domList_cons, if_neg hd] at h1
        exact h1.of_cons
    · intro it2 hit2 hitne
      have hmem := h.2 it2 (by rw [hq]; exact List.mem_cons_of_mem _ hit2) hitne
      refine Finset.mem_erase.mpr ⟨?_, hmem⟩
      by_cases hd : extract_domain url = ""
      · rw [hd]
        exact hitne
      · rw [domList_cons, if_neg hd] at h1
        have hnotin := (List.nodup_cons.mp h1).1
        intro hc
        exact hnotin (hc ▸ mem_domList.mpr ⟨hitne, it2, hit2, rfl⟩)

/-- C7 (amended): the run loop preserves the
at-most-one-pending-item-per-domain invariant — a crawl-discovered candidate
is enqueued only when its non-empty domain is neither processed nor queued,
its domain joins `queued_domains` in the same step, and a pop removes exactly
the popped item's domain.  (Seeding, by contrast, can violate it; see the
counterexample.) -/
theorem claim7_amended (deps : CrawlDeps) (cfg : Config) :
    ∀ (fuel : Nat) (st : DiscoveryState) (rng : Rng),
      QueueInv st → QueueInv (runLoop deps cfg fuel st rng).1 := by
  intro fuel
  induction fuel with
  | zero => intro st rng h; exact h
  | succ n ih =>
    intro st rng h
    simp only [runLoop]
    split
    · exact h
    · exact ih _ _ (loopStep_queueInv deps cfg st rng h)

/-- C7 amended witness: a concrete run from an invariant-satisfying seeded
state ends in an invariant-satisfying state. -/
theorem claim7_amended_witness :
    (let st : DiscoveryState :=
      { queued_domains := {"a.com"}, blogs_to_process := [("https://a.com/", none)] }
     QueueInv (runLoop (CrawlDeps.ofNet netA) cfgA 5 st {}).1) :=
  claim7_amended (CrawlDeps.ofNet netA) cfgA 5 _ {} ⟨by decide, by decide⟩

/-- C7 counterexample: the seeding phase checks seeds only against
`processed_domains`, so two seeds sharing the canonical domain `a.com` both
enter the frontier — immediately after seeding (a run with zero loop fuel),
the frontier holds two pending items for the same domain, refuting the claim
for entries created from the seed list. -/
theorem claim7_counterexample :
    (run_discovery (CrawlDeps.ofNet netA) cfgA 0 ["https://a.com/", "https://a.com/x"]
        DiscoveryState.empty {}).1.blogs_to_process =
      [("https://a.com/", none), ("https://a.com/x", none)] ∧
    extract_domain "https://a.com/" = "a.com" ∧
    extract_domain "https://a.com/x" = "a.com" ∧
    queueDomains (run_discovery (CrawlDeps.ofNet netA) cfgA 0
        ["https://a.com/", "https://a.com/x"] DiscoveryState.empty {}).1 =
      ["a.com", "a.com"] ∧
    ¬ (queueDomains (run_discovery (CrawlDeps.ofNet netA) cfgA 0
        ["https://a.com/", "https://a.com/x"] DiscoveryState.empty {}).1).Nodup := by
  refine ⟨by decide, by decide, by decide, by decide, by decide⟩

end RSS
